import Mathlib

/-!
Shallow embedding of the button-input subsystem of the InkyPi repository
(src/buttons/button_manager.py, src/buttons/buttons_blueprint.py).

The `ButtonManager` class owns:
  * `enabled`, `running` (booleans),
  * `thread` (modelled as a boolean `threadStarted`: whether a thread
    object was ever created),
  * `handlers` (a dict from label to list of callbacks, modelled as an
    association list so that the key set is explicit),
  * `request` (the gpiod line-request handle, modelled as `Option Unit`),
  * `offsets` (the line offset table, modelled as `Option (List Nat)`).

A callback is identified by a natural number; whether a given callback
raises when invoked is an external parameter `raises : Cb → Bool`.
Dispatch returns the invocation log (callback, label) in invocation order
together with the list of callbacks whose exception was caught and logged.
-/

namespace InkyPi

/-- A registered callback, identified structurally (Python compares
callbacks with `==` in `unregister_handler`). -/
abbrev Cb := Nat

/-- `ButtonManager.BUTTONS = [5, 6, 16, 24]`. -/
def BUTTONS : List Nat := [5, 6, 16, 24]

/-- `ButtonManager.LABELS = ["A", "B", "C", "D"]`. -/
def LABELS : List String := ["A", "B", "C", "D"]

/-- The mutable state of a `ButtonManager` instance. -/
structure ButtonManager where
  enabled : Bool
  threadStarted : Bool
  running : Bool
  handlers : List (String × List Cb)
  request : Option Unit
  offsets : Option (List Nat)
  deriving Repr, DecidableEq

/-- `ButtonManager.__init__(enabled)`: `self.enabled = enabled and
GPIOD_AVAILABLE`, no thread, not running, one empty handler list per
label, no request, no offsets. -/
def initManager (enabled gpiodAvailable : Bool) : ButtonManager :=
  { enabled := enabled && gpiodAvailable
    threadStarted := false
    running := false
    handlers := LABELS.map (fun l => (l, []))
    request := none
    offsets := none }

/-- Update the list stored under key `b` of an association list,
leaving every other entry unchanged (the model of mutating
`self.handlers[b]` in place). -/
def updateHandlers (hs : List (String × List Cb)) (b : String)
    (f : List Cb → List Cb) : List (String × List Cb) :=
  hs.map (fun p => if p.1 = b then (p.1, f p.2) else p)

/-- Result of a `register_handler` call: either it returned normally or
it raised `ValueError` (invalid button label). -/
inductive RegisterResult where
  | ok : RegisterResult
  | invalidIdentity : RegisterResult
  deriving Repr, DecidableEq

/-- `ButtonManager.register_handler(button, callback)`: raises
`ValueError` if `button not in self.LABELS` (state untouched), otherwise
appends the callback to `self.handlers[button]` under the lock. -/
def registerHandler (m : ButtonManager) (button : String) (cb : Cb) :
    ButtonManager × RegisterResult :=
  if button ∈ LABELS then
    ({ m with handlers := updateHandlers m.handlers button (fun s => s ++ [cb]) },
     RegisterResult.ok)
  else
    (m, RegisterResult.invalidIdentity)

/-- `ButtonManager.unregister_handler(button, callback)`: if `button`
is a key of `self.handlers` and the callback occurs in its list, remove
the first occurrence (`list.remove` removes the first `==`-equal
element); otherwise do nothing. Never raises. -/
def unregisterHandler (m : ButtonManager) (button : String) (cb : Cb) :
    ButtonManager :=
  match m.handlers.lookup button with
  | some seq =>
      if cb ∈ seq then
        { m with handlers := updateHandlers m.handlers button (fun s => s.erase cb) }
      else m
  | none => m

/-- Outcome of `_initialize_gpio()` as seen by `start()`: it can raise
before `self.offsets` is assigned (gpiod missing / chip not found), raise
after `self.offsets` is assigned but before `self.request` is
(request_lines failed), or succeed assigning both.  On success the offset
table is one driver offset per entry of `BUTTONS`. -/
inductive InitOutcome where
  | failEarly : InitOutcome
  | failRequestLines : (resolve : Nat → Nat) → InitOutcome
  | success : (resolve : Nat → Nat) → InitOutcome

/-- The result of a `start()` call: the new state, the returned boolean,
and whether hardware acquisition (`_initialize_gpio`) was attempted. -/
structure StartR where
  st : ButtonManager
  ret : Bool
  attempted : Bool
  deriving Repr

/-- `ButtonManager.start()`: returns `False` when disabled or already
running (no acquisition attempt).  Otherwise runs `_initialize_gpio`;
on success sets `running`, spawns the thread and returns `True`; on any
exception sets `self.enabled = False` and returns `False`. -/
def start (m : ButtonManager) (o : InitOutcome) : StartR :=
  if m.enabled = false then ⟨m, false, false⟩
  else if m.running then ⟨m, false, false⟩
  else
    match o with
    | InitOutcome.failEarly => ⟨{ m with enabled := false }, false, true⟩
    | InitOutcome.failRequestLines resolve =>
        ⟨{ m with offsets := some (BUTTONS.map resolve), enabled := false },
         false, true⟩
    | InitOutcome.success resolve =>
        ⟨{ m with offsets := some (BUTTONS.map resolve),
                  request := some (),
                  running := true,
                  threadStarted := true },
         true, true⟩

/-- `ButtonManager._cleanup_gpio()`: if `self.request` is set, release
it and clear it; otherwise do nothing. -/
def cleanupGpio (m : ButtonManager) : ButtonManager :=
  if m.request.isSome then { m with request := none } else m

/-- `ButtonManager.stop()`: clears `running` under the lock, joins the
thread with a 2 s timeout (no state effect), then calls
`_cleanup_gpio()`.  Total: never raises. -/
def stop (m : ButtonManager) : ButtonManager :=
  cleanupGpio { m with running := false }

/-- An edge event delivered by the gpiod request: only its line offset
is consulted by `_handle_button_event`. -/
structure Event where
  lineOffset : Nat
  deriving Repr, DecidableEq

/-- The `for handler in handlers` loop of `_handle_button_event`: each
callback is invoked with the label; a raising callback has its exception
caught and logged and the loop continues with the next callback.
Returns (invocation log, callbacks whose exception was caught). -/
def invokeAll (raises : Cb → Bool) (label : String) :
    List Cb → List (Cb × String) × List Cb
  | [] => ([], [])
  | h :: rest =>
      let tail := invokeAll raises label rest
      if raises h then ((h, label) :: tail.1, h :: tail.2)
      else ((h, label) :: tail.1, tail.2)

/-- `ButtonManager._handle_button_event(event)`: returns early when
`self.offsets is None`; `self.offsets.index(event.line_offset)` raises
`ValueError` when the offset is absent (caught by the outer handler:
zero invocations); `BUTTONS[index]` / `LABELS[index]` raise `IndexError`
out of range (caught likewise); the handler snapshot for the label is
copied under the lock and each callback invoked via `invokeAll`.
The state is never mutated. -/
def handleButtonEvent (raises : Cb → Bool) (m : ButtonManager) (e : Event) :
    List (Cb × String) × List Cb :=
  match m.offsets with
  | none => ([], [])
  | some os =>
      match os.findIdx? (fun x => x = e.lineOffset) with
      | none => ([], [])
      | some index =>
          match BUTTONS[index]? with
          | none => ([], [])
          | some _ =>
              match LABELS[index]? with
              | none => ([], [])
              | some label =>
                  match m.handlers.lookup label with
                  | none => ([], [])
                  | some seq => invokeAll raises label seq

/-- The `for event in events` loop of `_run` (lines 162–166): before
dispatching each event the `running` flag is re-read; `runningAt i` is
its value when event number `i` is examined (it may be cleared at any
point by a concurrent `stop()`).  `break` abandons the remaining events.
Each invocation is tagged with the index of the event that caused it. -/
def processEvents (raises : Cb → Bool) (m : ButtonManager)
    (runningAt : Nat → Bool) : List Event → Nat → List (Nat × Cb × String)
  | [], _ => []
  | e :: rest, i =>
      if runningAt i then
        ((handleButtonEvent raises m e).1.map (fun p => (i, p.1, p.2)))
          ++ processEvents raises m runningAt rest (i + 1)
      else []

/-- What the blocking read of one iteration of `_run` produced: a batch
of edge events (possibly empty), or an exception that escapes to the
`except` clause of `_run`. -/
inductive ReadOutcome where
  | events : List Event → ReadOutcome
  | readError : ReadOutcome

/-- One iteration of `ButtonManager._run` with no concurrent `stop()`
during the batch: if `running` is false the `while` exits and the
`finally` clause runs `_cleanup_gpio`; if `request` is gone the loop
`break`s likewise; a read exception logs, clears `running` and cleans
up; otherwise the batch is dispatched and the state is untouched.
Returns (state afterwards, whether the loop continues, invocation log). -/
def runStep (raises : Cb → Bool) (m : ButtonManager) (ro : ReadOutcome) :
    ButtonManager × Bool × List (Nat × Cb × String) :=
  if m.running = false then (cleanupGpio m, false, [])
  else if m.request.isNone then (cleanupGpio m, false, [])
  else
    match ro with
    | ReadOutcome.readError =>
        (cleanupGpio { m with running := false }, false, [])
    | ReadOutcome.events es =>
        (m, true, processEvents raises m (fun _ => m.running) es 0)

/-- The operations the primary and background contexts can perform on a
manager, for stating whole-lifetime invariants. -/
inductive Op where
  | register : String → Cb → Op
  | unregister : String → Cb → Op
  | opStart : InitOutcome → Op
  | opStop : Op
  | handle : (Cb → Bool) → Event → Op
  | run : (Cb → Bool) → ReadOutcome → Op

/-- Apply one operation to the state (dispatch never mutates state; a
failed `register_handler` leaves the state as it was). -/
def applyOp (m : ButtonManager) : Op → ButtonManager
  | Op.register b cb => (registerHandler m b cb).1
  | Op.unregister b cb => unregisterHandler m b cb
  | Op.opStart o => (start m o).st
  | Op.opStop => stop m
  | Op.handle _ _ => m
  | Op.run raises ro => (runStep raises m ro).1

/-- Apply a sequence of operations in order. -/
def applyOps (m : ButtonManager) : List Op → ButtonManager
  | [] => m
  | op :: rest => applyOps (applyOp m op) rest

/-- `button_status` of buttons_blueprint.py: the read-only status view
`{enabled, running, buttons}`. -/
structure Status where
  enabled : Bool
  running : Bool
  buttons : List String
  deriving Repr, DecidableEq

/-- `button_status()` (buttons_blueprint.py lines 48–52) for a present
manager. -/
def buttonStatus (m : ButtonManager) : Status :=
  { enabled := m.enabled, running := m.running, buttons := LABELS }

/-- A concrete running manager used to instantiate theorems: callbacks
`0` and `1` registered for button `"A"`, driver offsets 10/20/30/40 for
GPIO 5/6/16/24. -/
def sampleManager : ButtonManager :=
  { enabled := true
    threadStarted := true
    running := true
    handlers := [("A", [0, 1]), ("B", []), ("C", []), ("D", [])]
    request := some ()
    offsets := some [10, 20, 30, 40] }

/-! ### Helper lemmas -/

theorem invokeAll_eq (raises : Cb → Bool) (label : String) :
    ∀ seq : List Cb, invokeAll raises label seq =
      (seq.map (fun c => (c, label)), seq.filter raises)
  | [] => rfl
  | h :: rest => by
      simp [invokeAll, invokeAll_eq raises label rest]
      by_cases hr : raises h <;> simp [hr]

theorem findIdx_of_nodup_get {os : List Nat} {i : Nat} {v : Nat}
    (hn : os.Nodup) (hg : os[i]? = some v) :
    os.findIdx? (fun x => x = v) = some i := by
  induction os generalizing i with
  | nil => simp at hg
  | cons a t ih =>
    rcases i with _ | j
    · simp at hg
      subst hg
      simp [List.findIdx?_cons]
    · simp at hg
      have hv : v ∈ t := by
        rw [List.getElem?_eq_some] at hg
        obtain ⟨h1, h2⟩ := hg
        exact h2 ▸ List.getElem_mem h1
      have ha : ¬ (a = v) := by
        intro h
        subst h
        exact (List.nodup_cons.mp hn).1 hv
      rw [List.findIdx?_cons]
      simp only [decide_eq_true_eq]
      rw [if_neg ha, List.findIdx?_succ, ih (List.nodup_cons.mp hn).2 hg]
      rfl

theorem lookup_updateHandlers_self (hs : List (String × List Cb)) (b : String)
    (f : List Cb → List Cb) :
    (updateHandlers hs b f).lookup b = (hs.lookup b).map f := by
  induction hs with
  | nil => rfl
  | cons p t ih =>
    obtain ⟨k, v⟩ := p
    by_cases hk : k = b
    · subst hk
      simp [updateHandlers, List.lookup_cons]
    · have hbk : (b == k) = false := by simp [Ne.symm hk]
      simpa [updateHandlers, List.lookup_cons, hk, hbk] using ih

theorem lookup_updateHandlers_other (hs : List (String × List Cb))
    (b b2 : String) (f : List Cb → List Cb) (h : b2 ≠ b) :
    (updateHandlers hs b f).lookup b2 = hs.lookup b2 := by
  induction hs with
  | nil => rfl
  | cons p t ih =>
    obtain ⟨k, v⟩ := p
    by_cases hk : k = b
    · subst hk
      have hbk : (b2 == k) = false := by simp [h]
      simpa [updateHandlers, List.lookup_cons, hbk] using ih
    · by_cases hk2 : b2 = k
      · subst hk2
        simp [updateHandlers, List.lookup_cons, hk]
      · have hbk : (b2 == k) = false := by simp [hk2]
        simpa [updateHandlers, List.lookup_cons, hk, hbk] using ih

theorem keys_updateHandlers (hs : List (String × List Cb)) (b : String)
    (f : List Cb → List Cb) :
    (updateHandlers hs b f).map Prod.fst = hs.map Prod.fst := by
  induction hs with
  | nil => rfl
  | cons p t ih =>
    by_cases hk : p.1 = b
    · simpa [updateHandlers, hk] using ih
    · simpa [updateHandlers, hk] using ih

theorem cleanupGpio_enabled (m : ButtonManager) :
    (cleanupGpio m).enabled = m.enabled := by
  unfold cleanupGpio
  split <;> rfl

theorem cleanupGpio_running (m : ButtonManager) :
    (cleanupGpio m).running = m.running := by
  unfold cleanupGpio
  split <;> rfl

theorem cleanupGpio_handlers (m : ButtonManager) :
    (cleanupGpio m).handlers = m.handlers := by
  unfold cleanupGpio
  split <;> rfl

theorem cleanupGpio_request (m : ButtonManager) :
    (cleanupGpio m).request = none := by
  unfold cleanupGpio
  split
  · rfl
  · next h => exact Option.not_isSome_iff_eq_none.mp (by simpa using h)

theorem handleButtonEvent_raises_irrelevant (raises raises2 : Cb → Bool)
    (m : ButtonManager) (e : Event) :
    (handleButtonEvent raises m e).1 = (handleButtonEvent raises2 m e).1 := by
  cases ho : m.offsets with
  | none => simp [handleButtonEvent, ho]
  | some os =>
    cases hfi : os.findIdx? (fun x => x = e.lineOffset) with
    | none => simp [handleButtonEvent, ho, hfi]
    | some index =>
      cases hb : BUTTONS[index]? with
      | none => simp [handleButtonEvent, ho, hfi, hb]
      | some g =>
        cases hl : LABELS[index]? with
        | none => simp [handleButtonEvent, ho, hfi, hb, hl]
        | some label =>
          cases hs : m.handlers.lookup label with
          | none => simp [handleButtonEvent, ho, hfi, hb, hl, hs]
          | some seq =>
              simp [handleButtonEvent, ho, hfi, hb, hl, hs, invokeAll_eq]

theorem processEvents_raises_irrelevant (raises raises2 : Cb → Bool)
    (m : ButtonManager) (runningAt : Nat → Bool) :
    ∀ (es : List Event) (i : Nat),
      processEvents raises m runningAt es i =
        processEvents raises2 m runningAt es i
  | [], _ => rfl
  | e :: rest, i => by
      simp only [processEvents,
        handleButtonEvent_raises_irrelevant raises raises2 m e,
        processEvents_raises_irrelevant raises raises2 m runningAt rest (i + 1)]

theorem processEvents_index_running (raises : Cb → Bool) (m : ButtonManager)
    (runningAt : Nat → Bool) :
    ∀ (es : List Event) (i : Nat) (x : Nat × Cb × String),
      x ∈ processEvents raises m runningAt es i →
        i ≤ x.1 ∧ runningAt x.1 = true
  | [], _, x, hx => by simp [processEvents] at hx
  | e :: rest, i, x, hx => by
      simp only [processEvents] at hx
      by_cases hr : runningAt i = true
      · rw [if_pos hr] at hx
        rcases List.mem_append.mp hx with h1 | h2
        · obtain ⟨p, _, rfl⟩ := List.mem_map.mp h1
          exact ⟨Nat.le_refl i, hr⟩
        · have h := processEvents_index_running raises m runningAt rest (i + 1) x h2
          exact ⟨Nat.le_trans (Nat.le_succ i) h.1, h.2⟩
      · rw [if_neg hr] at hx
        simp at hx

theorem applyOp_enabled_false {m : ButtonManager} (hm : m.enabled = false)
    (op : Op) : (applyOp m op).enabled = false := by
  cases op with
  | register b cb =>
      simp only [applyOp, registerHandler]
      split <;> simpa using hm
  | unregister b cb =>
      simp only [applyOp, unregisterHandler]
      cases m.handlers.lookup b with
      | none => exact hm
      | some seq =>
          by_cases hc : cb ∈ seq
          · simpa [hc] using hm
          · simpa [hc] using hm
  | opStart o =>
      simp only [applyOp, start, hm]
      simpa using hm
  | opStop =>
      simp only [applyOp, stop]
      rw [cleanupGpio_enabled]
      exact hm
  | handle raises e => exact hm
  | run raises ro =>
      simp only [applyOp, runStep]
      split
      · rw [cleanupGpio_enabled]; exact hm
      · split
        · rw [cleanupGpio_enabled]; exact hm
        · cases ro with
          | readError => rw [cleanupGpio_enabled]; exact hm
          | events es => simpa using hm

theorem applyOps_enabled_false {m : ButtonManager} (hm : m.enabled = false) :
    ∀ ops : List Op, (applyOps m ops).enabled = false
  | [] => hm
  | op :: rest => applyOps_enabled_false (applyOp_enabled_false hm op) rest

theorem applyOp_keys (m : ButtonManager) (op : Op) :
    (applyOp m op).handlers.map Prod.fst = m.handlers.map Prod.fst := by
  cases op with
  | register b cb =>
      simp only [applyOp, registerHandler]
      split
      · simpa using keys_updateHandlers m.handlers b _
      · rfl
  | unregister b cb =>
      simp only [applyOp, unregisterHandler]
      cases m.handlers.lookup b with
      | none => rfl
      | some seq =>
          by_cases hc : cb ∈ seq
          · simpa [hc] using keys_updateHandlers m.handlers b _
          · simp [hc]
  | opStart o =>
      simp only [applyOp, start]
      split
      · rfl
      · split
        · rfl
        · cases o <;> rfl
  | opStop =>
      simp only [applyOp, stop]
      rw [cleanupGpio_handlers]
  | handle raises e => rfl
  | run raises ro =>
      simp only [applyOp, runStep]
      split
      · rw [cleanupGpio_handlers]
      · split
        · rw [cleanupGpio_handlers]
        · cases ro with
          | readError => rw [cleanupGpio_handlers]
          | events es => rfl

theorem applyOps_keys (m : ButtonManager) :
    ∀ ops : List Op,
      (applyOps m ops).handlers.map Prod.fst = m.handlers.map Prod.fst
  | [] => rfl
  | op :: rest => by
      rw [applyOps, applyOps_keys (applyOp m op) rest, applyOp_keys]

theorem start_of_disabled (m : ButtonManager) (h : m.enabled = false)
    (o : InitOutcome) : start m o = ⟨m, false, false⟩ := by
  simp [start, h]

/-! ### Claim theorems -/

/-- C1: an edge event whose line offset equals the i-th entry of the line
offset table (the table maps offsets 1:1, hence the `Nodup` premise) is
resolved to the i-th button label, and the dispatch pass invokes every
callback registered for that label exactly as many times as it occurs in
that label's list, in registration order; two edge events both mapping to
that label invoke the registered callbacks twice each, in registration
order within each pass. -/
theorem dispatch_invokes_in_order (raises : Cb → Bool) (m : ButtonManager)
    (e : Event) (os : List Nat) (i : Nat) (label : String) (seq : List Cb)
    (ho : m.offsets = some os) (hn : os.Nodup)
    (hi : os[i]? = some e.lineOffset)
    (hl : LABELS[i]? = some label)
    (hs : m.handlers.lookup label = some seq) :
    (handleButtonEvent raises m e).1 = seq.map (fun c => (c, label)) ∧
    (∀ c : Cb, ((handleButtonEvent raises m e).1.map Prod.fst).count c =
      seq.count c) ∧
    (processEvents raises m (fun _ => true) [e, e] 0).map (fun x => x.2) =
      seq.map (fun c => (c, label)) ++ seq.map (fun c => (c, label)) := by
  have hfi := findIdx_of_nodup_get hn hi
  have hi4 : i < 4 := by
    by_contra hlt
    push_neg at hlt
    rw [List.getElem?_eq_none (by simpa [LABELS] using hlt)] at hl
    exact Option.noConfusion hl
  have hbg : ∃ g, BUTTONS[i]? = some g := by
    interval_cases i <;> exact ⟨_, rfl⟩
  obtain ⟨g, hbg⟩ := hbg
  have h1 : (handleButtonEvent raises m e).1 = seq.map (fun c => (c, label)) := by
    simp only [handleButtonEvent, ho, hfi, hbg, hl, hs, invokeAll_eq]
  refine ⟨h1, ?_, ?_⟩
  · intro c
    rw [h1]
    simp [List.map_map, Function.comp_def]
  · simp [processEvents, h1, Function.comp_def]

/-- Witness for C1: callbacks 0 and 1 registered for "A"; two edge
events with line offset 10 (entry 0 of the table) invoke 0 then 1 in
each of the two passes. -/
theorem dispatch_invokes_in_order_witness :
    (handleButtonEvent (fun _ => false) sampleManager ⟨10⟩).1 =
      ([0, 1] : List Cb).map (fun c => (c, "A")) ∧
    (processEvents (fun _ => false) sampleManager (fun _ => true)
        [⟨10⟩, ⟨10⟩] 0).map (fun x => x.2) =
      ([0, 1] : List Cb).map (fun c => (c, "A")) ++
        ([0, 1] : List Cb).map (fun c => (c, "A")) := by
  have h := dispatch_invokes_in_order (fun _ => false) sampleManager ⟨10⟩
    [10, 20, 30, 40] 0 "A" [0, 1] rfl (by decide) rfl rfl rfl
  exact ⟨h.1, h.2.2⟩

/-- C2: `register_handler` with an identity outside the fixed label set
raises `ValueError` and leaves the whole state unchanged; with one
inside the set it returns normally, appends the callback to that
identity's list and leaves every other identity's list unchanged. -/
theorem registerHandler_spec (m : ButtonManager) (b : String) (cb : Cb) :
    (b ∉ LABELS →
      registerHandler m b cb = (m, RegisterResult.invalidIdentity)) ∧
    (b ∈ LABELS →
      (registerHandler m b cb).2 = RegisterResult.ok ∧
      (registerHandler m b cb).1.handlers.lookup b =
        (m.handlers.lookup b).map (fun s => s ++ [cb]) ∧
      ∀ b2, b2 ≠ b →
        (registerHandler m b cb).1.handlers.lookup b2 =
          m.handlers.lookup b2) := by
  constructor
  · intro hb
    simp [registerHandler, hb]
  · intro hb
    refine ⟨?_, ?_, ?_⟩
    · simp [registerHandler, hb]
    · simp [registerHandler, hb, lookup_updateHandlers_self]
    · intro b2 hb2
      simp [registerHandler, hb, lookup_updateHandlers_other _ _ _ _ hb2]

/-- Witness for C2: "X" is rejected with the state untouched; "A"
succeeds and appends. -/
theorem registerHandler_spec_witness :
    registerHandler sampleManager "X" 7 =
      (sampleManager, RegisterResult.invalidIdentity) ∧
    (registerHandler sampleManager "A" 7).1.handlers.lookup "A" =
      some [0, 1, 7] := by
  constructor
  · exact (registerHandler_spec sampleManager "X" 7).1 (by decide)
  · have h := ((registerHandler_spec sampleManager "A" 7).2 (by decide)).2.1
    rw [h]
    rfl

/-- C3: hardware acquisition failure during `start()` returns false and
permanently disables the manager: `enabled` is false afterwards and
stays false under any operation sequence, and every later `start()`
returns false without re-attempting acquisition. -/
theorem start_failure_disables (m : ButtonManager) (o : InitOutcome)
    (he : m.enabled = true) (hr : m.running = false)
    (hf : ∀ resolve, o ≠ InitOutcome.success resolve) :
    (start m o).ret = false ∧ (start m o).attempted = true ∧
    (start m o).st.enabled = false ∧
    ∀ ops : List Op,
      (applyOps (start m o).st ops).enabled = false ∧
      ∀ o2, start (applyOps (start m o).st ops) o2 =
        ⟨applyOps (start m o).st ops, false, false⟩ := by
  have hst : (start m o).ret = false ∧ (start m o).attempted = true ∧
      (start m o).st.enabled = false := by
    cases o with
    | failEarly => simp [start, he, hr]
    | failRequestLines resolve => simp [start, he, hr]
    | success resolve => exact absurd rfl (hf resolve)
  refine ⟨hst.1, hst.2.1, hst.2.2, ?_⟩
  intro ops
  have hen := applyOps_enabled_false hst.2.2 ops
  refine ⟨hen, ?_⟩
  intro o2
  exact start_of_disabled _ hen o2

/-- Witness for C3: a fresh enabled manager, failing acquisition, then a
stop and a registration, then a second start that returns false without
attempting acquisition. -/
theorem start_failure_disables_witness :
    (start (initManager true true) InitOutcome.failEarly).ret = false ∧
    (start (initManager true true) InitOutcome.failEarly).st.enabled = false ∧
    start (applyOps (start (initManager true true) InitOutcome.failEarly).st
        [Op.opStop, Op.register "A" 5]) InitOutcome.failEarly =
      ⟨applyOps (start (initManager true true) InitOutcome.failEarly).st
        [Op.opStop, Op.register "A" 5], false, false⟩ := by
  have h := start_failure_disables (initManager true true) InitOutcome.failEarly
    rfl rfl (fun r hcon => InitOutcome.noConfusion hcon)
  exact ⟨h.1, h.2.2.1,
    (h.2.2.2 [Op.opStop, Op.register "A" 5]).2 InitOutcome.failEarly⟩

/-- C4: an edge event whose line offset is not in the table produces zero
invocations (and no crash), and a subsequent event with a known offset in
the same batch is still dispatched normally. -/
theorem unknown_offset_skipped (raises : Cb → Bool) (m : ButtonManager)
    (os : List Nat) (bad good : Event)
    (ho : m.offsets = some os) (hb : bad.lineOffset ∉ os) :
    handleButtonEvent raises m bad = ([], []) ∧
    processEvents raises m (fun _ => true) [bad, good] 0 =
      (handleButtonEvent raises m good).1.map (fun p => (1, p.1, p.2)) := by
  have hfi : os.findIdx? (fun x => x = bad.lineOffset) = none := by
    rw [List.findIdx?_eq_none_iff]
    intro x hx
    simp only [decide_eq_false_iff_not]
    intro hcon
    exact hb (hcon ▸ hx)
  have h1 : handleButtonEvent raises m bad = ([], []) := by
    simp [handleButtonEvent, ho, hfi]
  refine ⟨h1, ?_⟩
  simp [processEvents, h1]

/-- Witness for C4: offset 99 is unknown and dispatches nothing; the
following event with known offset 10 still dispatches. -/
theorem unknown_offset_skipped_witness :
    handleButtonEvent (fun _ => false) sampleManager ⟨99⟩ = ([], []) ∧
    processEvents (fun _ => false) sampleManager (fun _ => true)
        [⟨99⟩, ⟨10⟩] 0 =
      (handleButtonEvent (fun _ => false) sampleManager ⟨10⟩).1.map
        (fun p => (1, p.1, p.2)) :=
  unknown_offset_skipped (fun _ => false) sampleManager [10, 20, 30, 40]
    ⟨99⟩ ⟨10⟩ rfl (by decide)

/-- C5: a raising callback is caught and logged (`invokeAll` records it
among the caught failures) while the invocation log is the full snapshot
in order, independent of which callbacks raise; dispatch of the same
event's remaining callbacks and of subsequent events is unaffected. -/
theorem callback_failure_isolated (raises : Cb → Bool) :
    (∀ label seq, invokeAll raises label seq =
        (seq.map (fun c => (c, label)), seq.filter raises)) ∧
    (∀ m e, (handleButtonEvent raises m e).1 =
        (handleButtonEvent (fun _ => false) m e).1) ∧
    (∀ m runningAt es i, processEvents raises m runningAt es i =
        processEvents (fun _ => false) m runningAt es i) :=
  ⟨fun label seq => invokeAll_eq raises label seq,
   fun m e => handleButtonEvent_raises_irrelevant raises _ m e,
   fun m runningAt es i =>
     processEvents_raises_irrelevant raises _ m runningAt es i⟩

/-- C6: `start()` returning true implies the reported status has
`running == true`; after `stop()` the status has `running == false`;
`stop` is idempotent, including when called twice in a row or before any
start. -/
theorem lifecycle_running_status (m : ButtonManager) (o : InitOutcome) :
    ((start m o).ret = true → (buttonStatus (start m o).st).running = true) ∧
    (buttonStatus (stop m)).running = false ∧
    stop (stop m) = stop m ∧
    ∀ e g, (buttonStatus (stop (initManager e g))).running = false := by
  refine ⟨?_, ?_, ?_, ?_⟩
  · intro hret
    by_cases he : m.enabled = false
    · simp [start, he] at hret
    · by_cases hr : m.running = true
      · simp [start, he, hr] at hret
      · cases o with
        | failEarly => simp [start, he, hr] at hret
        | failRequestLines resolve => simp [start, he, hr] at hret
        | success resolve => simp [start, he, hr, buttonStatus]
  · simp [buttonStatus, stop, cleanupGpio_running]
  · rcases m with ⟨en, th, ru, hs, req, offs⟩
    cases req <;> rfl
  · intro e g
    simp [buttonStatus, stop, cleanupGpio_running]

/-- Witness for C6: a successful start reports running; stopping the
running sample manager reports not running. -/
theorem lifecycle_running_status_witness :
    (buttonStatus (start (initManager true true)
        (InitOutcome.success (fun b => b))).st).running = true ∧
    (buttonStatus (stop sampleManager)).running = false :=
  ⟨(lifecycle_running_status (initManager true true)
      (InitOutcome.success (fun b => b))).1 rfl,
   (lifecycle_running_status sampleManager InitOutcome.failEarly).2.1⟩

/-- C7: within one batch, once the running flag has been cleared (it is
re-read before each event and, being cleared cooperatively, never comes
back within the batch), no event from that point on is dispatched: every
logged invocation stems from an event index strictly before the clearing
point. -/
theorem stop_abandons_batch (raises : Cb → Bool) (m : ButtonManager)
    (runningAt : Nat → Bool) (es : List Event) (k : Nat)
    (hmono : ∀ a b : Nat, a ≤ b → runningAt b = true → runningAt a = true)
    (hk : runningAt k = false) :
    (processEvents raises m runningAt es 0).all
      (fun x => decide (x.1 < k)) = true := by
  rw [List.all_eq_true]
  intro x hx
  have h := processEvents_index_running raises m runningAt es 0 x hx
  simp only [decide_eq_true_eq]
  by_contra hlt
  push_neg at hlt
  have hcon := hmono k x.1 hlt h.2
  rw [hk] at hcon
  exact Bool.noConfusion hcon

/-- Witness for C7: the flag is cleared after the first event of a
three-event batch; every invocation comes from event index 0. -/
theorem stop_abandons_batch_witness :
    (processEvents (fun _ => false) sampleManager (fun i => decide (i = 0))
        [⟨10⟩, ⟨10⟩, ⟨20⟩] 0).all (fun x => decide (x.1 < 1)) = true :=
  stop_abandons_batch (fun _ => false) sampleManager (fun i => decide (i = 0))
    [⟨10⟩, ⟨10⟩, ⟨20⟩] 1
    (by
      intro a b hab hb
      simp only [decide_eq_true_eq] at hb ⊢
      omega)
    (by decide)

/-- C8: `unregister_handler` removes the first structurally-equal
occurrence of the callback from the identity's list, leaving other
identities untouched; if the identity is unknown or the callback absent
it is a no-op that leaves the state unchanged (and, being total, never
raises). -/
theorem unregisterHandler_spec (m : ButtonManager) (b : String) (cb : Cb) :
    (∀ seq, m.handlers.lookup b = some seq → cb ∈ seq →
      ((unregisterHandler m b cb).handlers.lookup b = some (seq.erase cb) ∧
       ∀ b2, b2 ≠ b →
         (unregisterHandler m b cb).handlers.lookup b2 =
           m.handlers.lookup b2)) ∧
    (m.handlers.lookup b = none → unregisterHandler m b cb = m) ∧
    (∀ seq, m.handlers.lookup b = some seq → cb ∉ seq →
      unregisterHandler m b cb = m) := by
  refine ⟨?_, ?_, ?_⟩
  · intro seq hs hc
    constructor
    · simp [unregisterHandler, hs, hc, lookup_updateHandlers_self]
    · intro b2 hb2
      simp [unregisterHandler, hs, hc, lookup_updateHandlers_other _ _ _ _ hb2]
  · intro hs
    simp [unregisterHandler, hs]
  · intro seq hs hc
    simp [unregisterHandler, hs, hc]

/-- Witness for C8: removing callback 0 from "A" leaves [1]; an unknown
identity "Z" and an absent callback on "B" are no-ops. -/
theorem unregisterHandler_spec_witness :
    (unregisterHandler sampleManager "A" 0).handlers.lookup "A" = some [1] ∧
    unregisterHandler sampleManager "Z" 0 = sampleManager ∧
    unregisterHandler sampleManager "B" 0 = sampleManager := by
  refine ⟨?_, ?_, ?_⟩
  · have h := ((unregisterHandler_spec sampleManager "A" 0).1 [0, 1]
      rfl (by decide)).1
    rw [h]
    rfl
  · exact (unregisterHandler_spec sampleManager "Z" 0).2.1 rfl
  · exact (unregisterHandler_spec sampleManager "B" 0).2.2 [] rfl (by decide)

/-- C9 counterexample: a poll-loop step whose event read raises an
exception writes the running flag (clears it) and the session handle
(releases it) from the background context, so the loop does not leave
them unchanged in every step. -/
theorem runStep_background_writes_counterexample :
    ¬ ((runStep (fun _ => false) sampleManager ReadOutcome.readError).1.running =
         sampleManager.running ∧
       (runStep (fun _ => false) sampleManager ReadOutcome.readError).1.request =
         sampleManager.request) := by
  decide

/-- C9 (amended): during a normal event-processing iteration the
background context leaves the entire state — in particular the running
flag and the session handle — unchanged; it writes them only on its exit
paths: a read failure clears the running flag and releases the handle,
and observing a cleared running flag releases the handle on loop exit. -/
theorem runStep_frame (raises : Cb → Bool) (m : ButtonManager)
    (es : List Event) :
    (m.running = true → m.request.isSome = true →
      (runStep raises m (ReadOutcome.events es)).1 = m) ∧
    (m.running = true → m.request.isSome = true →
      (runStep raises m ReadOutcome.readError).1 =
        cleanupGpio { m with running := false }) ∧
    (m.running = false →
      (runStep raises m ReadOutcome.readError).1 = cleanupGpio m ∧
      (runStep raises m (ReadOutcome.events es)).1 = cleanupGpio m) := by
  refine ⟨?_, ?_, ?_⟩
  · intro hr hq
    cases hreq : m.request with
    | none => rw [hreq] at hq; simp at hq
    | some u => simp [runStep, hr, hreq]
  · intro hr hq
    cases hreq : m.request with
    | none => rw [hreq] at hq; simp at hq
    | some u => simp [runStep, hr, hreq]
  · intro hr
    constructor <;> simp [runStep, hr]

/-- Witness for C9 (amended): a normal iteration on the running sample
manager leaves the state unchanged; a read failure clears the flag and
releases the handle. -/
theorem runStep_frame_witness :
    (runStep (fun _ => false) sampleManager
        (ReadOutcome.events [⟨10⟩])).1 = sampleManager ∧
    (runStep (fun _ => false) sampleManager ReadOutcome.readError).1 =
      cleanupGpio { sampleManager with running := false } :=
  ⟨(runStep_frame (fun _ => false) sampleManager [⟨10⟩]).1 rfl rfl,
   (runStep_frame (fun _ => false) sampleManager [⟨10⟩]).2.1 rfl rfl⟩

/-- C10: the handler registry's key set is exactly the fixed label list
A, B, C, D from construction onward: any sequence of register,
unregister, start, stop, dispatch and poll-loop operations preserves
it. -/
theorem handlers_keys_fixed (e g : Bool) (ops : List Op) :
    (applyOps (initManager e g) ops).handlers.map Prod.fst = LABELS := by
  rw [applyOps_keys]
  rfl

end InkyPi
